import Mathlib

/-!
Verification of the harmony server core (crates/harmony and crates/rapid)
against its natural-language specification. Rust sources are shallowly
embedded as Lean functions: machine integers become Int/Nat, fallible code
returns Except or Option, panics (unwrap on None/Err, slice-length asserts)
become explicit error or none results, and the concurrent maps (DashMap,
the redis key-value store) become association lists with explicit state
passing.
-/

set_option autoImplicit false

namespace Harmony

/-- Error kinds surfaced to the wire. Modelled from the spec: the crate
errors module (crates/harmony/src/errors.rs) is not under src/, so the
variants are taken from the error-handling design section of the spec. -/
inductive Err where
  | unauthorized
  | invalidMethod
  | badRequest
  | notFound
  | missingPermission
  | alreadyExists
  | storage
  | mediaTimeout
  | unimplemented
  | internal
  deriving DecidableEq, Repr

/-! ### Association-list maps

DashMap and the redis string keyspace are modelled as association lists of
key-value pairs. `aset` replaces any existing binding, `adel` removes it;
lookups find the first binding. -/

def alookup {α : Type} : List (String × α) → String → Option α
  | [], _ => none
  | (k, v) :: rest, key => if k = key then some v else alookup rest key

def aset {α : Type} (l : List (String × α)) (key : String) (v : α) : List (String × α) :=
  (key, v) :: l.filter (fun p => p.1 != key)

def adel {α : Type} (l : List (String × α)) (key : String) : List (String × α) :=
  l.filter (fun p => p.1 != key)

/-! ### Codec (crates/harmony/src/services/encryption.rs)

The zlib transform is the external flate2 library; it is kept abstract as a
pair of functions. `deflate` is the full zlib stream written for a given
input (at Compression::best), `inflate` is what read::ZlibDecoder plus
read_to_end produce: the payload of the zlib stream that starts at the
beginning of the input (trailing bytes after the stream end are ignored),
or none when the input does not start with a valid stream. -/

structure ZlibSem where
  deflate : List Nat → List Nat
  inflate : List Nat → Option (List Nat)

/-- `encode` from encryption.rs. The compress branch constructs
flate2 write::ZlibEncoder with the payload vector as the UNDERLYING WRITER
(the sink compressed output is written to), never writes any bytes through
the compressor, and calls finish(); the result is therefore the untouched
payload followed by the compressed form of the empty stream. The encrypt
branch generates a 96-byte nonce and calls Nonce::from_slice on it; the
Aes256Gcm nonce type is 12 bytes, so from_slice panics (modelled as none)
before any encryption happens. The key is therefore modelled only by its
presence. -/
def encode (z : ZlibSem) (buffer : List Nat) (compress : Bool) (encrypt : Option Unit) :
    Option (List Nat) :=
  if compress then
    let compressed := buffer ++ z.deflate []
    match encrypt with
    | some _ => none
    | none => some compressed
  else
    match encrypt with
    | some _ => none
    | none => some buffer

/-- `decode` from encryption.rs. With a key present, buffer.split_off(96)
and Nonce::from_slice again panic on the 12-byte nonce type (none). The
compress branch feeds the whole buffer to read::ZlibDecoder and unwraps
read_to_end, so a corrupt stream is a panic (none). -/
def decode (z : ZlibSem) (buffer : List Nat) (compress : Bool) (encrypt : Option Unit) :
    Option (List Nat) :=
  match encrypt with
  | some _ => none
  | none =>
    if compress then z.inflate buffer
    else some buffer

/-- decode composed with encode under the same parameters; the spec claims
this is `some b` for every b, c, k. -/
def roundTrip (z : ZlibSem) (b : List Nat) (compress : Bool) (encrypt : Option Unit) :
    Option (List Nat) :=
  (encode z b compress encrypt).bind (fun e => decode z e compress encrypt)

/-- A concrete executable stand-in for the zlib pair, used to show the
hypotheses of the codec theorem are satisfiable: a self-delimiting
byte-pair encoding with an explicit terminator, so that a stream decodes to
its own payload and trailing bytes are ignored, exactly the contract the
real zlib satisfies. -/
def zlibToyDeflate : List Nat → List Nat
  | [] => [0, 0]
  | b :: x => 1 :: b :: zlibToyDeflate x

def zlibToyInflate : List Nat → Option (List Nat)
  | 0 :: 0 :: _ => some []
  | 1 :: b :: rest => (zlibToyInflate rest).map (fun t => b :: t)
  | _ => none

def zlibToy : ZlibSem := { deflate := zlibToyDeflate, inflate := zlibToyInflate }

/-! ### Pending-request rendezvous (crates/harmony/src/request.rs together
with the get_token / bus-consumer flow of crates/harmony/src/services/webrtc.rs)

The Rust `Request<T>` struct is `{ data: Option<T>, notify: Arc<Notify> }`
and derives Clone, so a clone COPIES the plain `data` field and shares only
the `Arc<Notify>`. The shared notifier of the entry under consideration is
modelled as the `notified` flag of the scenario state; the `data` fields of
the caller copy and of the table copy are separate, exactly as in Rust. -/

structure Request where
  data : Option String
  deriving DecidableEq, Repr

def Request.new : Request := { data := none }

/-- `Request::set`: writes the slot of THIS copy; it also fires the shared
notifier, which the scenario records in its `notified` flag. -/
def Request.set (r : Request) (v : String) : Request := { r with data := some v }

inductive WaitOutcome where
  | blocked
  | panicked
  | returned (v : String)
  deriving DecidableEq, Repr

/-- `Request::wait`: suspends until the shared notifier fires, then returns
`self.data.clone().unwrap()` — a panic when the data field of this copy is
still None. -/
def Request.wait (r : Request) (notified : Bool) : WaitOutcome :=
  if notified then
    match r.data with
    | some v => .returned v
    | none => .panicked
  else .blocked

/-- State of one get_token rendezvous: the caller-held `request` binding,
the REQUESTS table, and the state of the notifier shared between the caller
copy and the table copy at the rendezvous key. -/
structure RendezvousState where
  caller : Request
  table : List (String × Request)
  notified : Bool

def rendezvousKey (callId sessionId : String) : String := callId ++ ":" ++ sessionId

/-- The insert step of ActiveCall::get_token: a fresh Request is created and
`request.clone()` is inserted into REQUESTS before publishing UserConnect. -/
def getTokenInsert (table : List (String × Request)) (callId sessionId : String) :
    RendezvousState :=
  { caller := Request.new,
    table := aset table (rendezvousKey callId sessionId) Request.new,
    notified := false }

/-- The UserCreate arm of spawn_check_available_nodes: looks the rendezvous
key up in REQUESTS with get_mut and, when present, calls set on the TABLE
copy, which fires the notifier shared with the caller copy. -/
def busUserCreate (st : RendezvousState) (callId sessionId v : String) : RendezvousState :=
  match alookup st.table (rendezvousKey callId sessionId) with
  | some r =>
    { st with
      table := aset st.table (rendezvousKey callId sessionId) (Request.set r v),
      notified := true }
  | none => st

/-- The await at the end of get_token: the caller waits on its own copy. -/
def callerWait (st : RendezvousState) : WaitOutcome := Request.wait st.caller st.notified

/-! ### Call coordinator state (crates/harmony/src/services/webrtc.rs)

The redis keyspace is modelled as an association list from keys to typed
values: `RVal.str` for a value written as a plain string, `RVal.call` for a
value written through the ToRedisArgs instance of ActiveCall (msgpack
struct-map bytes). -/

structure ActiveCall where
  id : String
  name : Option String
  members : List String
  space_id : String
  channel_id : String
  deriving DecidableEq, Repr

inductive RVal where
  | str (s : String)
  | call (c : ActiveCall)
  deriving DecidableEq, Repr

abbrev Store := List (String × RVal)

/-- redis GET decoded as Option String. A value written as an ActiveCall
record is msgpack struct-map bytes whose first byte is 0x85, which is not
valid UTF-8, so the String conversion fails with a redis type error; the
callers propagate it with the question-mark operator, modelled as the
storage error (the spec says store errors surface as Storage; the crate
errors module is absent from src/). -/
def redisGetStr (st : Store) (key : String) : Except Err (Option String) :=
  match alookup st key with
  | none => .ok none
  | some (.str s) => .ok (some s)
  | some (.call _) => .error .storage

/-- redis GET decoded through FromRedisValue for ActiveCall. A plain string
value does not deserialize as a msgpack ActiveCall record, which the
instance maps to a redis type error, propagated as above. -/
def redisGetCall (st : Store) (key : String) : Except Err (Option ActiveCall) :=
  match alookup st key with
  | none => .ok none
  | some (.call c) => .ok (some c)
  | some (.str _) => .error .storage

def witnessKey (space channel : String) : String := "call:" ++ space ++ ":" ++ channel

def canonicalKey (id : String) : String := "call:" ++ id

/-- Call history record. Modelled from the spec: the database calls module
(crates/harmony/src/services/database/calls.rs) is not under src/; the spec
describes the history snapshot as id, channel-id, joined-members, name,
ended-at, written on create. -/
structure StoredCall where
  channel_id : String
  id : String
  joined_members : List String
  name : Option String
  ended_at : Int
  deriving DecidableEq, Repr

def ActiveCall.get (st : Store) (id : String) : Except Err (Option ActiveCall) :=
  redisGetCall st (canonicalKey id)

def ActiveCall.get_in_channel (st : Store) (space channel : String) :
    Except Err (Option ActiveCall) :=
  match redisGetStr st (witnessKey space channel) with
  | .error e => .error e
  | .ok (some id) => ActiveCall.get st id
  | .ok none => .ok none

/-- ActiveCall::create. Checks get_in_channel, then writes the new record —
the WHOLE ActiveCall value — under the call:{space}:{channel} key (no other
redis key is written), inserts the history record, and returns the call.
The ULID mint is passed in as newId, the clock as now. The spawned 30s
history-refresh task is not modelled (no claim depends on it). -/
def ActiveCall.create (st : Store) (history : List StoredCall)
    (space channel initiator newId : String) (now : Int) :
    Except Err ActiveCall × Store × List StoredCall :=
  match ActiveCall.get_in_channel st space channel with
  | .error e => (.error e, st, history)
  | .ok (some _) => (.error .alreadyExists, st, history)
  | .ok none =>
    let call : ActiveCall :=
      { id := newId, name := none, members := [initiator],
        space_id := space, channel_id := channel }
    let st' := aset st (witnessKey space channel) (.call call)
    let stored : StoredCall :=
      { channel_id := channel, id := newId, joined_members := [initiator],
        name := none, ended_at := now }
    (.ok call, st', history ++ [stored])

/-- ActiveCall::update issues set::<String, ActiveCall, ActiveCall>: the
SET command takes effect on the server (the record is written under
call:{id}), but the third type parameter makes the redis client parse the
+OK status reply through FromRedisValue for ActiveCall, whose impl accepts
only BulkString replies, so update ALWAYS returns a type error after the
write (propagated as the storage error). Contrast create, which uses the
unit reply type and succeeds. -/
def ActiveCall.update (c : ActiveCall) (st : Store) : Except Err Unit × Store :=
  (.error .storage, aset st (canonicalKey c.id) (.call c))

/-- ActiveCall::join_user pushes the member onto self, then propagates the
result of update with the question-mark operator: the mutated self and the
written store are left behind, but the returned result is always the error
update produced. -/
def ActiveCall.join_user (c : ActiveCall) (u : String) (st : Store) :
    Except Err Unit × ActiveCall × Store :=
  let c' := { c with members := c.members ++ [u] }
  let r := ActiveCall.update c' st
  match r.1 with
  | .error e => (.error e, c', r.2)
  | .ok _ => (.ok (), c', r.2)

/-- ActiveCall::end (end is a Lean keyword): del::<String, ActiveCall>
deletes the witness key on the server, but parses the Integer reply of DEL
through FromRedisValue for ActiveCall, which rejects it, so end also
always returns an error after the deletion. -/
def ActiveCall.end_call (c : ActiveCall) (st : Store) : Except Err Unit × Store :=
  (.error .storage, adel st (witnessKey c.space_id c.channel_id))

/-- ActiveCall::leave_user: retains members ≠ user, then
self.update().await? — since update always errors, leave_user returns
early with that error, making the is_empty check and the end() call after
it dead code; they are kept below the error branch exactly as in the
source. -/
def ActiveCall.leave_user (c : ActiveCall) (u : String) (st : Store) :
    Except Err Unit × ActiveCall × Store :=
  let c' := { c with members := c.members.filter (fun x => x != u) }
  let r := ActiveCall.update c' st
  match r.1 with
  | .error e => (.error e, c', r.2)
  | .ok _ =>
    if c'.members.isEmpty then
      let r2 := ActiveCall.end_call c' r.2
      match r2.1 with
      | .error e => (.error e, c', r2.2)
      | .ok _ => (.ok (), c', r2.2)
    else (.ok (), c', r.2)

/-! ### Media-node directory (spawn_check_available_nodes in
crates/harmony/src/services/webrtc.rs)

AVAILABLE_NODES is a DashMap from node id to Node. The pulse_api Region tag
is opaque to this code and modelled as a string. -/

structure Node where
  id : String
  region : String
  last_ping : Int
  deriving DecidableEq, Repr

/-- Node::new stamps last_ping with the current time. -/
def Node.new (id region : String) (now : Int) : Node :=
  { id := id, region := region, last_ping := now }

abbrev NodeDir := List (String × Node)

inductive NodeEvent where
  | description (id region : String)
  | ping (id : String)
  | disconnect (id : String)
  | query
  | userCreate (callId sessionId sdp : String)
  deriving DecidableEq, Repr

/-- One iteration of the bus-consumer event loop, restricted to its effect
on AVAILABLE_NODES. Description builds a Node stamped now and inserts it
only when the id is not already present (contains_key then continue); Ping
refreshes last_ping through get_mut when the node is known; Disconnect
removes the id; Query is a no-op; UserCreate only touches the REQUESTS
table (modelled by busUserCreate above) and leaves the directory unchanged. -/
def handleNodeEvent (dir : NodeDir) (ev : NodeEvent) (now : Int) : NodeDir :=
  match ev with
  | .description id region =>
    if (alookup dir id).isSome then dir
    else aset dir id (Node.new id region now)
  | .ping id =>
    match alookup dir id with
    | some n => aset dir id { n with last_ping := now }
    | none => dir
  | .disconnect id => adel dir id
  | .query => dir
  | .userCreate _ _ _ => dir

def nodeTimeoutMs : Int := 10000

/-- The sweeper task sleeps this many milliseconds between scans. -/
def sweepIntervalMs : Nat := 1000

/-- One scan of the sweeper task: retain keeps a node unless
last_ping + 10000 < now. -/
def sweepNodes (dir : NodeDir) (now : Int) : NodeDir :=
  dir.filter (fun p => !(decide (p.2.last_ping + nodeTimeoutMs < now)))

/-! ### RPC socket layer (crates/rapid/src/socket.rs)

RpcClient keeps the connection id, the opaque authenticated user handle
(present iff Identify succeeded; modelled as the stable user-id string the
spec says the handle carries), and the pre-issued request-id pool. The
outbound channel and heartbeat channel are modelled at the scenario level
(runSupervisor, read_loop_binary). The registry DashMap<String, RpcClient>
is an association list. -/

structure RpcClient where
  id : String
  user : Option String
  request_ids : List String
  deriving DecidableEq, Repr

abbrev Registry := List (String × RpcClient)

/-- rmpv::Value as far as the modelled claims need it: handlers treat the
request payload opaquely. -/
inductive Value where
  | nil
  | str (s : String)
  deriving DecidableEq, Repr

inductive RpcApiRequest where
  | identify (token : String) (publicKey : List Nat)
  | heartbeat
  | getId
  | message (id : String) (method : String) (data : Value)
  deriving Repr

/-- Outbound frames: the RpcApiEvent variants, RpcApiResponse (with its
Option id field), and RpcApiError, which has ONLY an error field. -/
inductive Outbound where
  | helloEv (publicKey : List Nat) (requestIds : List String)
  | identifyEv
  | heartbeatEv
  | getIdEv (requestIds : List String)
  | response (id : Option String) (response : Option Value)
  | errorReply (e : Err)
  deriving DecidableEq, Repr

/-- The request id carried by an outbound frame: only RpcApiResponse has an
id field on the wire. -/
def Outbound.carriedId : Outbound → Option String
  | .response id _ => id
  | _ => none

inductive Panic where
  | unwrapFailed
  deriving DecidableEq, Repr

/-- A registered method handler: gets the registry handle, the caller
connection id and the decoded payload, and produces the response value.
The registered harmony handlers read the registry but never insert or
remove sessions, so the handler result is just the value. -/
abbrev MethodFn := Registry → String → Value → Value

/-- handle_packet from socket.rs, for one decoded RpcApiRequest. Each
clients.get / get_mut followed by unwrap is a panic when the connection id
is no longer registered. The Heartbeat arm sends a tick on heartbeat_tx
(consumed by runSupervisor below); the GetId arm mints 20 ids from the
generator stream gen, appending each to the session pool and to the reply. -/
def handle_packet (auth : String → Except Err String) (methods : List (String × MethodFn))
    (gen : Nat → String) (reg : Registry) (connId : String) (req : RpcApiRequest) :
    Except Panic (Registry × Outbound) :=
  match req with
  | .identify token _publicKey =>
    match auth token with
    | .ok user =>
      match alookup reg connId with
      | none => .error .unwrapFailed
      | some c => .ok (aset reg connId { c with user := some user }, .identifyEv)
    | .error e => .ok (reg, .errorReply e)
  | .heartbeat =>
    match alookup reg connId with
    | none => .error .unwrapFailed
    | some _ => .ok (reg, .heartbeatEv)
  | .getId =>
    match alookup reg connId with
    | none => .error .unwrapFailed
    | some c =>
      let newIds := (List.range 20).map gen
      .ok (aset reg connId { c with request_ids := c.request_ids ++ newIds }, .getIdEv newIds)
  | .message id method data =>
    match alookup methods method with
    | none => .ok (reg, .errorReply .invalidMethod)
    | some h => .ok (reg, .response (some id) (some (h reg connId data)))

/-- The Binary arm of the read loop in start_client: run handle_packet,
then look the session up again with clients.get(&id).unwrap() and send the
reply on its outbound channel. The ok result is the registry after the
frame and the frame that was sent. -/
def read_loop_binary (auth : String → Except Err String) (methods : List (String × MethodFn))
    (gen : Nat → String) (reg : Registry) (connId : String) (req : RpcApiRequest) :
    Except Panic (Registry × Outbound) :=
  match handle_packet auth methods gen reg connId req with
  | .error p => .error p
  | .ok (reg', out) =>
    match alookup reg' connId with
    | none => .error .unwrapFailed
    | some _ => .ok (reg', out)

/-- The heartbeat supervisor task of start_client. ticks is the ordered
list of arrival times of ticks on the session heartbeat channel; each loop
iteration waits future::timeout(HEARTBEAT_TIMEOUT, rx.recv()), so a tick
arriving within HB of the start of the wait restarts the loop from its
arrival time and otherwise the wait times out exactly HB later, the session
is removed from the registry, and — when the removal yielded a session —
its outbound channel is closed. The HEARTBEAT_TIMEOUT constant lives in
the utilities module, which is not under src/; it is a parameter HB here.
Result: registry after eviction, whether an outbound channel was closed,
and the time at which the timeout fired. -/
def runSupervisor (HB : Nat) (now : Nat) (ticks : List Nat) (reg : Registry)
    (connId : String) : Registry × Bool × Nat :=
  match ticks with
  | [] => (adel reg connId, (alookup reg connId).isSome, now + HB)
  | t :: rest =>
    if t ≤ now + HB then runSupervisor HB t rest reg connId
    else (adel reg connId, (alookup reg connId).isSome, now + HB)

/-! ### leaveCall handler (crates/harmony/src/methods/webrtc.rs) -/

/-- Modelled from the spec: check_authenticated (the crate authentication
module is not under src/) returns Unauthorized unless the caller session
exists and its opaque user handle is set. -/
def check_authenticated (reg : Registry) (connId : String) : Except Err Unit :=
  match alookup reg connId with
  | some c => if c.user.isSome then .ok () else .error .unauthorized
  | none => .error .unauthorized

structure LeaveCallMethod where
  id : String
  space_id : Option String
  deriving DecidableEq, Repr

/-- leave_call from methods/webrtc.rs: after check_authenticated, a missing
space_id is Unimplemented; otherwise it reads the active call in the
channel, answers NotFound when there is none, and — as written in the
source — returns NotFound when the caller IS in call.members, while a
caller that is not a member falls through to call.leave_user(..).await?,
whose result (always an error, see update above) it propagates. -/
def leave_call (reg : Registry) (connId : String) (data : LeaveCallMethod) (st : Store) :
    Except Err Unit × Store :=
  match check_authenticated reg connId with
  | .error e => (.error e, st)
  | .ok _ =>
    match data.space_id with
    | none => (.error .unimplemented, st)
    | some spaceId =>
      match ActiveCall.get_in_channel st spaceId data.id with
      | .error e => (.error e, st)
      | .ok none => (.error .notFound, st)
      | .ok (some call) =>
        if call.members.contains connId then (.error .notFound, st)
        else
          let r := ActiveCall.leave_user call connId st
          match r.1 with
          | .error e => (.error e, r.2.2)
          | .ok _ => (.ok (), r.2.2)

/-! ### Concrete fixtures used by witnesses and counterexamples -/

def authW : String → Except Err String := fun _ => .ok "U"

def genW : Nat → String := fun n => "id" ++ toString n

def clientW : RpcClient := { id := "conn1", user := some "U", request_ids := [] }

def regW : Registry := [("conn1", clientW)]

def callW : ActiveCall :=
  { id := "call1", name := none, members := ["u"], space_id := "s", channel_id := "c" }

/-- A store holding an active call laid out the way the spec describes the
keyspace: the witness key maps to the call id, the canonical key to the
record. The write side of this code never produces such a store; it is the
input on which the leave_call handler logic is exercised. -/
def storeW : Store :=
  [(witnessKey "s" "c", RVal.str "call1"), (canonicalKey "call1", RVal.call callW)]

def regW4 : Registry :=
  [("u", { id := "u", user := some "U", request_ids := [] }),
   ("v", { id := "v", user := some "V", request_ids := [] })]

/-! ### Helper lemmas -/

theorem alookup_aset_self {α : Type} (l : List (String × α)) (key : String) (v : α) :
    alookup (aset l key v) key = some v := by
  simp [aset, alookup]

theorem alookup_filter_ne {α : Type} (l : List (String × α)) (key other : String)
    (h : other ≠ key) : alookup (l.filter (fun p => p.1 != key)) other = alookup l other := by
  induction l with
  | nil => rfl
  | cons p rest ih =>
    by_cases hk : p.1 = key
    · have hb : (p.1 != key) = false := by simp [hk]
      have hne : ¬ p.1 = other := fun he => h (he ▸ hk ▸ rfl)
      simp [List.filter, hb, alookup, ih, hne]
    · have hb : (p.1 != key) = true := by simp [hk]
      simp [List.filter, hb, alookup, ih]

theorem alookup_aset_ne {α : Type} (l : List (String × α)) (key other : String) (v : α)
    (h : other ≠ key) : alookup (aset l key v) other = alookup l other := by
  have hne : ¬ key = other := fun he => h he.symm
  simp [aset, alookup, hne]
  exact alookup_filter_ne l key other h

theorem alookup_adel_self {α : Type} (l : List (String × α)) (key : String) :
    alookup (adel l key) key = none := by
  induction l with
  | nil => rfl
  | cons p rest ih =>
    by_cases hk : p.1 = key
    · have : (p.1 != key) = false := by simp [hk]
      simpa [adel, List.filter, this] using ih
    · have : (p.1 != key) = true := by simp [hk]
      simpa [adel, List.filter, this, alookup, hk] using ih

theorem alookup_adel_ne {α : Type} (l : List (String × α)) (key other : String)
    (h : other ≠ key) : alookup (adel l key) other = alookup l other :=
  alookup_filter_ne l key other h

theorem zlibToy_inflate_deflate (x junk : List Nat) :
    zlibToyInflate (zlibToyDeflate x ++ junk) = some x := by
  induction x with
  | nil => rfl
  | cons b rest ih => simp [zlibToyDeflate, zlibToyInflate, ih]

/-- The first four properties of the heartbeat supervisor, by induction on
the tick arrival list. -/
theorem runSupervisor_evicts_aux (HB : Nat) (ticks : List Nat) (now : Nat) (reg : Registry)
    (connId : String) :
    alookup (runSupervisor HB now ticks reg connId).1 connId = none
    ∧ (∀ other, other ≠ connId →
        alookup (runSupervisor HB now ticks reg connId).1 other = alookup reg other)
    ∧ (runSupervisor HB now ticks reg connId).2.1 = (alookup reg connId).isSome
    ∧ ((runSupervisor HB now ticks reg connId).2.2 = now + HB
        ∨ ∃ t ∈ ticks, (runSupervisor HB now ticks reg connId).2.2 = t + HB) := by
  induction ticks generalizing now with
  | nil =>
    exact ⟨alookup_adel_self reg connId,
      fun o ho => alookup_adel_ne reg connId o ho, rfl, Or.inl rfl⟩
  | cons t rest ih =>
    by_cases ht : t ≤ now + HB
    · have hr : runSupervisor HB now (t :: rest) reg connId
          = runSupervisor HB t rest reg connId := by
        simp [runSupervisor, ht]
      obtain ⟨h1, h2, h3, h4⟩ := ih t
      refine ⟨hr ▸ h1, fun o ho => hr ▸ h2 o ho, hr ▸ h3, ?_⟩
      rw [hr]
      rcases h4 with h4 | ⟨t', ht', he⟩
      · exact Or.inr ⟨t, List.mem_cons_self t rest, h4⟩
      · exact Or.inr ⟨t', List.mem_cons_of_mem t ht', he⟩
    · have hr : runSupervisor HB now (t :: rest) reg connId
          = (adel reg connId, (alookup reg connId).isSome, now + HB) := by
        simp [runSupervisor, ht]
      rw [hr]
      exact ⟨alookup_adel_self reg connId,
        fun o ho => alookup_adel_ne reg connId o ho, rfl, Or.inl rfl⟩

/-! ### Claim theorems -/

/-- Claim C3. The spec claims decode(encode(b, c, k), c, k) = b for every
byte string b, compress flag c and key presence k. On the code this fails:
the compress branch of encode never routes the payload through the
compressor (it appends the compressed empty stream to the untouched
payload), so decoding the encoding of b = deflate(empty) yields the empty
string instead of b; and any call with a key present panics in
Nonce::from_slice, because the Aes256Gcm nonce is 12 bytes while the code
builds 96. The hypotheses are the standard zlib stream contract: a stream
followed by trailing bytes inflates to its own payload, and the stream for
the empty payload is nonempty. -/
theorem codec_round_trip_fails (z : ZlibSem)
    (h1 : ∀ x junk, z.inflate (z.deflate x ++ junk) = some x)
    (h2 : z.deflate [] ≠ []) :
    roundTrip z (z.deflate []) true none = some []
    ∧ roundTrip z (z.deflate []) true none ≠ some (z.deflate [])
    ∧ (∀ b c, roundTrip z b c (some ()) = none) := by
  have he : roundTrip z (z.deflate []) true none = some [] := by
    simp [roundTrip, encode, decode, h1 []]
  refine ⟨he, ?_, ?_⟩
  · rw [he]
    intro hc
    exact h2 (Option.some.inj hc).symm
  · intro b c
    cases c <;> simp [roundTrip, encode, decode]

theorem codec_round_trip_fails_witness :
    roundTrip zlibToy (zlibToy.deflate []) true none = some []
    ∧ roundTrip zlibToy (zlibToy.deflate []) true none ≠ some (zlibToy.deflate []) :=
  ⟨(codec_round_trip_fails zlibToy (fun x junk => zlibToy_inflate_deflate x junk)
      (by decide)).1,
   (codec_round_trip_fails zlibToy (fun x junk => zlibToy_inflate_deflate x junk)
      (by decide)).2.1⟩

/-- Claim C2. The spec claims that after insert and resolve on the same
rendezvous key, the waiting caller is woken and its wait returns exactly
the resolved value. On the code the caller IS woken (the notifier is inside
an Arc shared by the clone stored in REQUESTS), but set wrote the value
into the data field of the TABLE copy only — data is a plain Option field
copied by Clone — so the caller unwraps its own still-None field: wait
panics and never returns the value. -/
theorem rendezvous_wait_panics (table : List (String × Request)) (callId sessionId v : String) :
    (busUserCreate (getTokenInsert table callId sessionId) callId sessionId v).notified = true
    ∧ alookup (busUserCreate (getTokenInsert table callId sessionId) callId sessionId v).table
        (rendezvousKey callId sessionId) = some { data := some v }
    ∧ callerWait (busUserCreate (getTokenInsert table callId sessionId) callId sessionId v)
        = .panicked
    ∧ callerWait (busUserCreate (getTokenInsert table callId sessionId) callId sessionId v)
        ≠ .returned v := by
  have hl : alookup (aset table (rendezvousKey callId sessionId) Request.new)
      (rendezvousKey callId sessionId) = some Request.new :=
    alookup_aset_self table (rendezvousKey callId sessionId) Request.new
  refine ⟨?_, ?_, ?_, ?_⟩ <;>
    simp [busUserCreate, getTokenInsert, hl, alookup_aset_self, callerWait,
      Request.wait, Request.new, Request.set]

/-- Claim C1. The spec claims create stores the canonical record under
call:{callId}, stores the witness under call:{spaceId}:{channelId} pointing
to the canonical key, that getInChannel then returns the call, and that a
second create fails with AlreadyExists. On the code, create writes the
WHOLE record under the witness key and writes nothing under call:{callId};
getInChannel then reads the witness as a string call id — the record bytes
do not decode as a string — and fails with a store error instead of
returning the call, so a second create propagates that error rather than
AlreadyExists. Evaluated here on a create from the empty store. -/
theorem create_layout_bug :
    (ActiveCall.create [] [] "s" "c" "u" "call1" 0).1
      = .ok { id := "call1", name := none, members := ["u"],
              space_id := "s", channel_id := "c" }
    ∧ alookup (ActiveCall.create [] [] "s" "c" "u" "call1" 0).2.1 (canonicalKey "call1") = none
    ∧ alookup (ActiveCall.create [] [] "s" "c" "u" "call1" 0).2.1 (witnessKey "s" "c")
      = some (.call { id := "call1", name := none, members := ["u"],
                      space_id := "s", channel_id := "c" })
    ∧ ActiveCall.get_in_channel (ActiveCall.create [] [] "s" "c" "u" "call1" 0).2.1 "s" "c"
      = .error .storage
    ∧ (ActiveCall.create (ActiveCall.create [] [] "s" "c" "u" "call1" 0).2.1
        (ActiveCall.create [] [] "s" "c" "u" "call1" 0).2.2 "s" "c" "u2" "call2" 0).1
      = .error .storage := by
  refine ⟨rfl, ?_, ?_, rfl, rfl⟩ <;> rfl

/-- Claim C4. The spec intends leaveCall to reject a caller that is NOT in
the member list with NotFound and to remove a caller that IS a member and
succeed. The handler as written violates both directions: on a store
holding an active call with member list [u], the request by u is answered
NotFound (the membership test is inverted, before any write), while the
non-member v falls through to leave_user, whose update() always fails
parsing the SET reply, so v receives the storage error rather than
success. -/
theorem leave_call_membership_inverted :
    (leave_call regW4 "u" { id := "c", space_id := some "s" } storeW).1 = .error .notFound
    ∧ (leave_call regW4 "v" { id := "c", space_id := some "s" } storeW).1 = .error .storage := by
  exact ⟨rfl, rfl⟩

/-- Claim C5 counterexample. With the caller registered and the method
registry empty, an inbound Message with id r2 and an unknown method name is
answered with the RpcApiError payload for InvalidMethod, a frame that has
no id field at all — it does not carry r2, contradicting the claim that
the error is correlated to the request id. -/
theorem invalid_method_reply_counterexample :
    read_loop_binary authW [] genW regW "conn1" (.message "r2" "doesNotExist" .nil)
      = .ok (regW, .errorReply .invalidMethod)
    ∧ Outbound.carriedId (.errorReply .invalidMethod) ≠ some "r2" := by
  exact ⟨rfl, by simp [Outbound.carriedId]⟩

/-- Claim C5 as amended. For every registered caller and every Message
frame whose method name is not in the registry, the emitted reply is the
InvalidMethod error payload, which carries no request id (only a
successful dispatch produces a Response frame carrying the id). -/
theorem invalid_method_reply_uncorrelated (auth : String → Except Err String)
    (methods : List (String × MethodFn)) (gen : Nat → String) (reg : Registry)
    (connId : String) (c : RpcClient) (mid mname : String) (data : Value)
    (hc : alookup reg connId = some c) (hm : alookup methods mname = none) :
    read_loop_binary auth methods gen reg connId (.message mid mname data)
      = .ok (reg, .errorReply .invalidMethod)
    ∧ Outbound.carriedId (.errorReply .invalidMethod) = none := by
  refine ⟨?_, rfl⟩
  simp [read_loop_binary, handle_packet, hm, hc]

theorem invalid_method_reply_uncorrelated_witness :
    read_loop_binary authW [] genW regW "conn1" (.message "r2" "doesNotExist" Value.nil)
      = .ok (regW, .errorReply .invalidMethod)
    ∧ Outbound.carriedId (.errorReply .invalidMethod) = none :=
  invalid_method_reply_uncorrelated authW [] genW regW "conn1" clientW "r2" "doesNotExist"
    Value.nil rfl rfl

/-- Claim C6. The spec claims membership closure for joinUser/leaveUser
and that a leave removing the last member deletes the witness key (the
call ends). On the code none of this is reachable: update() parses the +OK
reply of SET through FromRedisValue for ActiveCall, which accepts only
BulkString, so it always errors after performing the write; join_user and
leave_user therefore never return success, and leave_user returns at
self.update().await? BEFORE the is_empty check, so end() is never invoked
from it. Evaluated on a call in (s, c) with member list [u]: leaving the
last member u writes the record back with an empty member list, yet the
witness key call:s:c is still present afterwards — the call does not
end. -/
theorem leave_user_auto_end_bug :
    (ActiveCall.join_user callW "x" storeW).1 = .error .storage
    ∧ (ActiveCall.leave_user callW "u" storeW).1 = .error .storage
    ∧ ((ActiveCall.leave_user callW "u" storeW).2.1).members = []
    ∧ alookup (ActiveCall.leave_user callW "u" storeW).2.2 (canonicalKey "call1")
        = some (.call { id := "call1", name := none, members := [],
                        space_id := "s", channel_id := "c" })
    ∧ alookup (ActiveCall.leave_user callW "u" storeW).2.2 (witnessKey "s" "c")
        = some (RVal.str "call1") := by
  exact ⟨rfl, rfl, rfl, rfl, rfl⟩

/-- Claim C7. The heartbeat supervisor waits at most HB ms per wait: a tick
arriving within HB of the start of the wait restarts it unchanged (last
conjunct), and the wait that times out fires exactly HB after its start —
which is either the supervisor start or the arrival of some tick — at
which point the session is removed from the registry (other sessions
untouched) and, when the removal yielded a session, its outbound channel
is closed. -/
theorem heartbeat_supervisor_evicts (HB now : Nat) (ticks : List Nat) (reg : Registry)
    (connId : String) :
    alookup (runSupervisor HB now ticks reg connId).1 connId = none
    ∧ (∀ other, other ≠ connId →
        alookup (runSupervisor HB now ticks reg connId).1 other = alookup reg other)
    ∧ (runSupervisor HB now ticks reg connId).2.1 = (alookup reg connId).isSome
    ∧ ((runSupervisor HB now ticks reg connId).2.2 = now + HB
        ∨ ∃ t ∈ ticks, (runSupervisor HB now ticks reg connId).2.2 = t + HB)
    ∧ (∀ t rest, t ≤ now + HB →
        runSupervisor HB now (t :: rest) reg connId = runSupervisor HB t rest reg connId) := by
  obtain ⟨h1, h2, h3, h4⟩ := runSupervisor_evicts_aux HB ticks now reg connId
  refine ⟨h1, h2, h3, h4, ?_⟩
  intro t rest ht
  simp [runSupervisor, ht]

theorem heartbeat_supervisor_evicts_witness :
    alookup (runSupervisor 100 0 [50] regW "conn1").1 "conn1" = none
    ∧ alookup (runSupervisor 100 0 [50] regW "conn1").1 "other" = alookup regW "other"
    ∧ runSupervisor 100 0 (50 :: []) regW "conn1" = runSupervisor 100 50 [] regW "conn1" :=
  ⟨(heartbeat_supervisor_evicts 100 0 [50] regW "conn1").1,
   (heartbeat_supervisor_evicts 100 0 [50] regW "conn1").2.1 "other" (by decide),
   (heartbeat_supervisor_evicts 100 0 [50] regW "conn1").2.2.2.2 50 [] (by decide)⟩

/-- Claim C8. The GetId arm mints exactly 20 ids from the generator
stream; the session pool afterwards is the old pool with those 20 appended
(so the pool is append-only: its old-length prefix is unchanged and its
length grew by exactly 20), and the GetId reply returns exactly the
appended ids. -/
theorem getId_pool_monotonic (auth : String → Except Err String)
    (methods : List (String × MethodFn)) (gen : Nat → String) (reg : Registry)
    (connId : String) (c : RpcClient) (h : alookup reg connId = some c) :
    ∃ ids : List String,
      handle_packet auth methods gen reg connId .getId
        = .ok (aset reg connId { c with request_ids := c.request_ids ++ ids }, .getIdEv ids)
      ∧ ids.length = 20
      ∧ (c.request_ids ++ ids).length = c.request_ids.length + 20
      ∧ (c.request_ids ++ ids).take c.request_ids.length = c.request_ids := by
  refine ⟨(List.range 20).map gen, ?_, ?_, ?_, ?_⟩
  · simp [handle_packet, h]
  · simp
  · simp
  · exact List.take_left _ _

theorem getId_pool_monotonic_witness :
    ∃ ids : List String,
      handle_packet authW [] genW regW "conn1" .getId
        = .ok (aset regW "conn1" { clientW with request_ids := clientW.request_ids ++ ids },
               .getIdEv ids)
      ∧ ids.length = 20
      ∧ (clientW.request_ids ++ ids).length = clientW.request_ids.length + 20
      ∧ (clientW.request_ids ++ ids).take clientW.request_ids.length = clientW.request_ids :=
  getId_pool_monotonic authW [] genW regW "conn1" clientW rfl

/-- Claim C9. Over the node directory: a Description event ends with the
node bound to its existing entry when already present (duplicates leave it
unchanged) and otherwise to a fresh node stamped last-ping = now; a Ping
refreshes last-ping exactly for a known node (no entry appears for an
unknown one); a Disconnect removes the node; and one sweeper scan, run
every 1000 ms, keeps a directory entry iff its last-ping + 10000 is not in
the past. -/
theorem node_directory_lifecycle :
    (∀ (dir : NodeDir) (id region : String) (now : Int),
        alookup (handleNodeEvent dir (.description id region) now) id
          = some ((alookup dir id).getD (Node.new id region now)))
    ∧ (∀ (dir : NodeDir) (id : String) (now : Int),
        alookup (handleNodeEvent dir (.ping id) now) id
          = (alookup dir id).map (fun n => { n with last_ping := now }))
    ∧ (∀ (dir : NodeDir) (id : String) (now : Int),
        alookup (handleNodeEvent dir (.disconnect id) now) id = none)
    ∧ (∀ (dir : NodeDir) (now : Int) (p : String × Node),
        p ∈ sweepNodes dir now ↔ p ∈ dir ∧ ¬ (p.2.last_ping + nodeTimeoutMs < now))
    ∧ nodeTimeoutMs = 10000 ∧ sweepIntervalMs = 1000 := by
  refine ⟨?_, ?_, ?_, ?_, rfl, rfl⟩
  · intro dir id region now
    cases h : alookup dir id with
    | none => simp [handleNodeEvent, h, alookup_aset_self]
    | some n => simp [handleNodeEvent, h]
  · intro dir id now
    cases h : alookup dir id with
    | none => simp [handleNodeEvent, h]
    | some n => simp [handleNodeEvent, h, alookup_aset_self]
  · intro dir id now
    exact alookup_adel_self dir id
  · intro dir now p
    simp [sweepNodes, List.mem_filter]

/-- Claim C10. Once the connection id is absent from the session registry —
as after heartbeat eviction or after a non-binary frame removed it — the
handling of ANY further inbound Binary frame on that connection panics on
an unwrap of a failed registry lookup: inside the Identify, Heartbeat and
GetId arms, or at the clients.get(&id).unwrap() before sending the reply. -/
theorem evicted_session_binary_panics (auth : String → Except Err String)
    (methods : List (String × MethodFn)) (gen : Nat → String) (reg : Registry)
    (connId : String) (req : RpcApiRequest) (h : alookup reg connId = none) :
    read_loop_binary auth methods gen reg connId req = .error .unwrapFailed := by
  cases req with
  | identify token publicKey =>
    cases hA : auth token with
    | ok u => simp [read_loop_binary, handle_packet, hA, h]
    | error e => simp [read_loop_binary, handle_packet, hA, h]
  | heartbeat => simp [read_loop_binary, handle_packet, h]
  | getId => simp [read_loop_binary, handle_packet, h]
  | message mid mname data =>
    cases hm : alookup methods mname with
    | none => simp [read_loop_binary, handle_packet, hm, h]
    | some f => simp [read_loop_binary, handle_packet, hm, h]

theorem evicted_session_binary_panics_witness :
    read_loop_binary authW [] genW [] "gone" .heartbeat = .error .unwrapFailed :=
  evicted_session_binary_panics authW [] genW [] "gone" .heartbeat rfl

end Harmony
